import Mathlib

/-!
Shallow embedding of the KUNKIN DC load serial driver (`src/kunkin.py`):
CRC-16 computation, request-frame construction, setter validation and
encoding, echo confirmation, and measurement-reply decoding.

Serial I/O is external to the model: each function that exchanges bytes
with the device takes the device reply as an explicit argument.  Python
floats are modelled as exact rationals; every pinned claim input is a
value at which the Python double computation yields the same encoded
integer as exact rational arithmetic, so the model and the code agree
there.  A Python exception escaping a function is modelled by
`PyResult.raised`; byte strings are `List Nat` with entries < 256.
-/

namespace Kunkin

/-- Result of a Python call: normal return, or an uncaught exception. -/
inductive PyResult (α : Type) where
  | ok : α → PyResult α
  | raised : String → PyResult α
deriving DecidableEq

/-- Register addresses (class constants of `KunkinDCLoad`). -/
def REG_LOAD_ONOFF : Nat := 0x010E

def REG_LOAD_MODE : Nat := 0x0110

def REG_CV_SETTING : Nat := 0x0112

def REG_CC_SETTING : Nat := 0x0116

def REG_CR_SETTING : Nat := 0x011A

def REG_CW_SETTING : Nat := 0x011E

/-- One pass of the CRC inner loop (`kunkin.py` lines 69-72):
if the low bit is set, shift right one and XOR with 0xA001, else shift
right one. -/
def crcBitStep (crc : Nat) : Nat :=
  if crc &&& 0x0001 = 1 then (crc >>> 1) ^^^ 0xA001 else crc >>> 1

/-- The `for _ in range(8)` loop: iterate `crcBitStep`. -/
def crcBitLoop : Nat → Nat → Nat
  | 0, crc => crc
  | n + 1, crc => crcBitLoop n (crcBitStep crc)

/-- Processing of one input byte (`crc ^= byte` then 8 bit passes). -/
def crcByteStep (crc byte : Nat) : Nat := crcBitLoop 8 (crc ^^^ byte)

/-- The 16-bit CRC value of `calculate_crc` before serialization:
seed 0xFFFF folded over the data bytes. -/
def crcValue (data : List Nat) : Nat := data.foldl crcByteStep 0xFFFF

/-- `calculate_crc`: the CRC serialized by `struct.pack("<H", crc)`,
low byte first then high byte. -/
def calculate_crc (data : List Nat) : List Nat :=
  [crcValue data % 256, crcValue data / 256 % 256]

/-- The command frame built by `write_single_register` (lines 101-122):
address, function code 0x06, register high/low byte, register count

0x00 0x01, byte count 0x04, the data bytes, then the CRC. -/
def write_frame (address register : Nat) (data_bytes : List Nat) : List Nat :=
  let high_byte := (register >>> 8) &&& 0xFF
  let low_byte := register &&& 0xFF
  let cmd := [address, 0x06, high_byte, low_byte, 0x00, 0x01, 0x04] ++ data_bytes
  cmd ++ calculate_crc cmd

/-- The echo check of `write_single_register` (line 128): the call
reports success exactly when the reply equals the transmitted frame. -/
def write_single_register (address register : Nat) (data_bytes response : List Nat) : Bool :=
  response == write_frame address register data_bytes

/-- The read-common-block command frame of `read_common_registers`
(lines 138-150). -/
def read_frame (address : Nat) : List Nat :=
  let cmd := [address, 0x03, 0x03, 0x00, 0x00, 0x00]
  cmd ++ calculate_crc cmd

/-- Python slice `l[a:b]` for nonnegative bounds (clamps, never fails). -/
def pySlice (l : List Nat) (a b : Nat) : List Nat := (l.take b).drop a

/-- Python `int.from_bytes(bs, byteorder="big")`; the empty byte string
decodes to 0. -/
def beBytes (bs : List Nat) : Nat := bs.foldl (fun acc b => acc * 256 + b) 0

/-- Python `int()` on a float modelled as an exact rational: truncation
toward zero. -/
def pyInt (q : ℚ) : ℤ := Int.tdiv q.num q.den

/-- Python `struct.pack(">I", n)`: 4 bytes, big endian. -/
def pack_be4 (n : Nat) : List Nat :=
  [n / 2 ^ 24 % 256, n / 2 ^ 16 % 256, n / 2 ^ 8 % 256, n % 256]

/-- The decoded measurement dictionary of `read_common_registers`
(lines 178-185); the `_v` / `_a` fields model the float divisions by
1000.0 as exact rational divisions. -/
structure Measurements where
  is_on : Bool
  mode : Nat
  voltage_mv : Nat
  voltage_v : ℚ
  current_ma : Nat
  current_a : ℚ
deriving DecidableEq

/-- `read_common_registers` (lines 155-187) applied to a device reply:
replies shorter than 6 bytes yield `none`; on a matching header the
declared payload is sliced out and decoded.  `data[0]` on an empty
payload raises `IndexError` in Python; that is the `.raised` branch. -/
def read_common_registers (address : Nat) (response : List Nat) :
    PyResult (Option Measurements) :=
  if response.length < 6 then .ok none
  else
    match response with
    | r0 :: r1 :: r2 :: rest =>
      if r0 = address ∧ r1 = 0x03 then
        let data := rest.take r2
        match data with
        | [] => .raised "IndexError"
        | status_byte :: _ =>
          let voltage_bytes := pySlice data 2 5
          let current_bytes := pySlice data 5 8
          .ok (some
            { is_on := status_byte &&& 0x01 = 1
              mode := (status_byte >>> 1) &&& 0x03
              voltage_mv := beBytes voltage_bytes
              voltage_v := (beBytes voltage_bytes : ℚ) / 1000
              current_ma := beBytes current_bytes
              current_a := (beBytes current_bytes : ℚ) / 1000 })
      else .ok none
    | _ => .ok none

/-- The four-field dictionary returned by `get_measurements`
(lines 287-302). -/
structure Snapshot where
  voltage_v : ℚ
  current_a : ℚ
  mode : Nat
  is_on : Bool
deriving DecidableEq

/-- `get_measurements`: projects the common-register decode; a `None`
from `read_common_registers` propagates as `none`, an exception
propagates as raised. -/
def get_measurements (address : Nat) (response : List Nat) :
    PyResult (Option Snapshot) :=
  match read_common_registers address response with
  | .raised e => .raised e
  | .ok none => .ok none
  | .ok (some m) =>
    .ok (some { voltage_v := m.voltage_v, current_a := m.current_a,
                mode := m.mode, is_on := m.is_on })

/-- `set_voltage` (lines 219-234): convert to millivolts with `int()`,
validate the inclusive range, and only then build the command frame.
The `.ok` value is the frame handed to `send_command`; a `ValueError`
raised before any frame is built is the `.raised` branch. -/
def set_voltage (address : Nat) (voltage_v : ℚ) : PyResult (List Nat) :=
  let voltage_mv := pyInt (voltage_v * 1000)
  if 0 ≤ voltage_mv ∧ voltage_mv ≤ 150000 then
    .ok (write_frame address REG_CV_SETTING (pack_be4 voltage_mv.toNat))
  else .raised "Voltage must be between 0 and 150V"

/-- `set_current` (lines 236-251). -/
def set_current (address : Nat) (current_a : ℚ) : PyResult (List Nat) :=
  let current_ma := pyInt (current_a * 1000)
  if 0 ≤ current_ma ∧ current_ma ≤ 30000 then
    .ok (write_frame address REG_CC_SETTING (pack_be4 current_ma.toNat))
  else .raised "Current must be between 0 and 30A"

/-- `set_resistance` (lines 253-268). -/
def set_resistance (address : Nat) (resistance_ohm : ℚ) : PyResult (List Nat) :=
  let resistance_mohm := pyInt (resistance_ohm * 1000)
  if 0 ≤ resistance_mohm ∧ resistance_mohm ≤ 80000 then
    .ok (write_frame address REG_CR_SETTING (pack_be4 resistance_mohm.toNat))
  else .raised "Resistance must be between 0 and 80 ohms"

/-- `set_power` (lines 270-285): note the scale is 10 (deciwatts). -/
def set_power (address : Nat) (power_w : ℚ) : PyResult (List Nat) :=
  let power_tenth_w := pyInt (power_w * 10)
  if 0 ≤ power_tenth_w ∧ power_tenth_w ≤ 2500 then
    .ok (write_frame address REG_CW_SETTING (pack_be4 power_tenth_w.toNat))
  else .raised "Power must be between 0 and 250W"

/-- True exactly when the call raised (models an escaping `ValueError`). -/
def raisedError {α : Type} : PyResult α → Bool
  | .raised _ => true
  | .ok _ => false

/-- CRC as worded by the spec, for comparison with the source's
`calculate_crc`: the byte is XORed into the LOW BYTE of the running
value, bit tests and shifts are arithmetic (`% 2`, `/ 2`), and the
result is serialized as two bytes, low byte first. -/
def specBitStep (c : Nat) : Nat :=
  if c % 2 = 1 then (c / 2) ^^^ 0xA001 else c / 2

def specBitLoop : Nat → Nat → Nat
  | 0, c => c
  | n + 1, c => specBitLoop n (specBitStep c)

def specXorLowByte (c b : Nat) : Nat := 256 * (c / 256) + ((c % 256) ^^^ b)

def specByteStep (c b : Nat) : Nat := specBitLoop 8 (specXorLowByte c b)

def specCrcValue (data : List Nat) : Nat := data.foldl specByteStep 0xFFFF

def specCrcBytes (data : List Nat) : List Nat :=
  [specCrcValue data % 256, specCrcValue data / 256]

/-- For a nonnegative rational, Python truncation agrees with the floor. -/
theorem pyInt_eq_floor {q : ℚ} (h : 0 ≤ q) : pyInt q = ⌊q⌋ := by
  rw [Rat.floor_def, pyInt]
  exact Int.tdiv_eq_ediv (Rat.num_nonneg.mpr h) (Int.natCast_nonneg _)

/-- Evaluation rule for `pyInt` on nonnegative inputs via integer bounds. -/
theorem pyInt_eq_of_bounds {q : ℚ} {n : ℤ} (h0 : 0 ≤ n) (h1 : (n : ℚ) ≤ q)
    (h2 : q < (n : ℚ) + 1) : pyInt q = n := by
  have hq : 0 ≤ q := le_trans (by exact_mod_cast h0) h1
  rw [pyInt_eq_floor hq]
  exact Int.floor_eq_iff.mpr ⟨h1, h2⟩

theorem crcBitStep_lt {c : Nat} (h : c < 2 ^ 16) : crcBitStep c < 2 ^ 16 := by
  have hs : c >>> 1 < 2 ^ 16 := by
    rw [Nat.shiftRight_eq_div_pow, pow_one]
    exact Nat.lt_of_le_of_lt (Nat.div_le_self c 2) h
  unfold crcBitStep
  split
  · exact Nat.xor_lt_two_pow hs (by norm_num)
  · exact hs

theorem crcBitLoop_lt (n : Nat) : ∀ {c : Nat}, c < 2 ^ 16 → crcBitLoop n c < 2 ^ 16 := by
  induction n with
  | zero => intro c h; exact h
  | succ n ih => intro c h; exact ih (crcBitStep_lt h)

theorem crcByteStep_lt {c b : Nat} (hc : c < 2 ^ 16) (hb : b < 256) :
    crcByteStep c b < 2 ^ 16 :=
  crcBitLoop_lt 8 (Nat.xor_lt_two_pow hc (lt_trans hb (by norm_num)))

theorem crc_foldl_lt (data : List Nat) : ∀ c : Nat, c < 2 ^ 16 →
    (∀ b ∈ data, b < 256) → data.foldl crcByteStep c < 2 ^ 16 := by
  induction data with
  | nil => intro c hc _; exact hc
  | cons x xs ih =>
    intro c hc hb
    exact ih _ (crcByteStep_lt hc (hb x (by simp))) (fun b h => hb b (by simp [h]))

theorem crcValue_lt {data : List Nat} (h : ∀ b ∈ data, b < 256) : crcValue data < 2 ^ 16 :=
  crc_foldl_lt data 0xFFFF (by norm_num) h

theorem crcBitStep_even {c : Nat} (h : c % 2 = 0) : crcBitStep c = c / 2 := by
  unfold crcBitStep
  rw [Nat.and_one_is_mod, Nat.shiftRight_eq_div_pow, pow_one, h]
  simp

theorem crcBitLoop_two_pow_mul (k q : Nat) : crcBitLoop k (2 ^ k * q) = q := by
  induction k generalizing q with
  | zero => simp [crcBitLoop]
  | succ k ih =>
    have h2 : 2 ^ (k + 1) * q = 2 * (2 ^ k * q) := by ring
    show crcBitLoop k (crcBitStep (2 ^ (k + 1) * q)) = q
    rw [h2, crcBitStep_even (Nat.mul_mod_right 2 _),
      Nat.mul_div_cancel_left _ (by norm_num)]
    exact ih q

/-- XOR with a byte only touches the low 8 bits of the other operand. -/
theorem xor_low_aux (q r b : Nat) (hr : r < 256) (hb : b < 256) :
    (2 ^ 8 * q + r) ^^^ b = 2 ^ 8 * q + (r ^^^ b) := by
  have hr8 : r < 2 ^ 8 := by simpa using hr
  have hb8 : b < 2 ^ 8 := by simpa using hb
  have hxor : r ^^^ b < 2 ^ 8 := Nat.xor_lt_two_pow hr8 hb8
  apply Nat.eq_of_testBit_eq
  intro i
  rw [Nat.testBit_xor, Nat.testBit_mul_pow_two_add _ hr8, Nat.testBit_mul_pow_two_add _ hxor]
  by_cases hi : i < 8
  · simp [hi, Nat.testBit_xor]
  · have hbi : Nat.testBit b i = false :=
      Nat.testBit_lt_two_pow (lt_of_lt_of_le hb8 (Nat.pow_le_pow_right (by norm_num) (by omega)))
    simp [hi, hbi]

theorem byte_split (c : Nat) : c = 2 ^ 8 * (c / 256) + c % 256 := by
  simp only [show (2 : Nat) ^ 8 = 256 by norm_num]
  omega

theorem xor_mod_self (c : Nat) : c ^^^ c % 256 = 2 ^ 8 * (c / 256) := by
  have h2 := xor_low_aux (c / 256) (c % 256) (c % 256)
    (Nat.mod_lt _ (by norm_num)) (Nat.mod_lt _ (by norm_num))
  rw [Nat.xor_self, Nat.add_zero] at h2
  calc c ^^^ c % 256 = (2 ^ 8 * (c / 256) + c % 256) ^^^ c % 256 := by rw [← byte_split]
  _ = 2 ^ 8 * (c / 256) := h2

/-- Feeding the low byte of the running CRC back into the CRC shifts out
that byte. -/
theorem crcByteStep_low (c : Nat) : crcByteStep c (c % 256) = c / 256 := by
  unfold crcByteStep
  rw [xor_mod_self, crcBitLoop_two_pow_mul]

/-- Feeding a value equal to the whole running CRC zeroes the register. -/
theorem crcByteStep_self (d : Nat) : crcByteStep d d = 0 := by
  unfold crcByteStep
  rw [Nat.xor_self]
  simpa using crcBitLoop_two_pow_mul 8 0

theorem crcValue_append (s t : List Nat) :
    crcValue (s ++ t) = t.foldl crcByteStep (crcValue s) := by
  simp [crcValue, List.foldl_append]

theorem crcValue_append_crc (s : List Nat) (h : ∀ b ∈ s, b < 256) :
    crcValue (s ++ calculate_crc s) = 0 := by
  have hC : crcValue s < 65536 := by simpa using crcValue_lt h
  rw [show calculate_crc s = [crcValue s % 256, crcValue s / 256 % 256] from rfl,
    crcValue_append]
  simp only [List.foldl_cons, List.foldl_nil]
  rw [crcByteStep_low, Nat.mod_eq_of_lt (by omega : crcValue s / 256 < 256), crcByteStep_self]

theorem specBitStep_eq (c : Nat) : crcBitStep c = specBitStep c := by
  rw [crcBitStep, specBitStep, Nat.and_one_is_mod, Nat.shiftRight_eq_div_pow, pow_one]

theorem specBitLoop_eq (n : Nat) : ∀ c, crcBitLoop n c = specBitLoop n c := by
  induction n with
  | zero => intro c; rfl
  | succ n ih =>
    intro c
    show crcBitLoop n (crcBitStep c) = specBitLoop n (specBitStep c)
    rw [specBitStep_eq c]
    exact ih _

theorem specByteStep_eq (c b : Nat) (hb : b < 256) : crcByteStep c b = specByteStep c b := by
  rw [crcByteStep, specByteStep, specXorLowByte, ← specBitLoop_eq]
  congr 1
  calc c ^^^ b = (2 ^ 8 * (c / 256) + c % 256) ^^^ b := by rw [← byte_split]
  _ = 2 ^ 8 * (c / 256) + (c % 256 ^^^ b) := xor_low_aux _ _ _ (Nat.mod_lt _ (by norm_num)) hb
  _ = 256 * (c / 256) + (c % 256 ^^^ b) := by norm_num

theorem specCrc_foldl_eq (data : List Nat) : ∀ c : Nat, (∀ b ∈ data, b < 256) →
    data.foldl crcByteStep c = data.foldl specByteStep c := by
  induction data with
  | nil => intro c _; rfl
  | cons x xs ih =>
    intro c hb
    simp only [List.foldl_cons]
    rw [specByteStep_eq _ _ (hb x (by simp))]
    exact ih _ (fun b h => hb b (by simp [h]))

/-- A frame of the shape `body ++ CRC(body)` is well-formed: recomputing
the CRC over everything before the trailing two bytes reproduces them. -/
theorem append_crc_wellformed (l : List Nat) :
    calculate_crc ((l ++ calculate_crc l).take ((l ++ calculate_crc l).length - 2))
      = (l ++ calculate_crc l).drop ((l ++ calculate_crc l).length - 2) := by
  have hlen : (l ++ calculate_crc l).length = l.length + 2 := by simp [calculate_crc]
  rw [hlen, show l.length + 2 - 2 = l.length from by omega,
    List.take_left, List.drop_left]

/-- Claim C1: `calculate_crc` implements the spec's bit-shift CRC-16
exactly: running value seeded 0xFFFF; each byte XORed into the low byte;
8 passes of shift-right-one with conditional XOR 0xA001; the 16-bit
result serialized as two bytes, low byte first. -/
theorem calculate_crc_eq_spec (data : List Nat) (h : ∀ b ∈ data, b < 256) :
    calculate_crc data = specCrcBytes data := by
  have hv : crcValue data = specCrcValue data := specCrc_foldl_eq data 0xFFFF h
  have hlt : crcValue data < 65536 := by simpa using crcValue_lt h
  rw [calculate_crc, specCrcBytes, ← hv,
    Nat.mod_eq_of_lt (by omega : crcValue data / 256 < 256)]

theorem calculate_crc_eq_spec_witness :
    calculate_crc [0x01, 0x06] = specCrcBytes [0x01, 0x06] :=
  calculate_crc_eq_spec [0x01, 0x06] (by decide)

/-- Claim C8 counterexample: already for the empty byte sequence,
recomputing the CRC over the sequence extended with its own CRC gives
serialized bytes 00 00, not the two appended bytes FF FF. -/
theorem crc_append_recompute_cex :
    calculate_crc ([] ++ calculate_crc []) ≠ calculate_crc [] := by decide

/-- Claim C8 (amended): for every byte sequence, appending
`calculate_crc` of it (low byte first) and recomputing the CRC over the
extended sequence yields the zero residual — serialized bytes 00 00 —
rather than the appended bytes themselves. -/
theorem calculate_crc_append_self (s : List Nat) (h : ∀ b ∈ s, b < 256) :
    calculate_crc (s ++ calculate_crc s) = [0x00, 0x00] := by
  have h0 : crcValue (s ++ calculate_crc s) = 0 := crcValue_append_crc s h
  rw [show calculate_crc (s ++ calculate_crc s)
      = [crcValue (s ++ calculate_crc s) % 256, crcValue (s ++ calculate_crc s) / 256 % 256]
    from rfl, h0]

theorem calculate_crc_append_self_witness :
    calculate_crc ([0x01, 0x03] ++ calculate_crc [0x01, 0x03]) = [0x00, 0x00] :=
  calculate_crc_append_self [0x01, 0x03] (by decide)

/-- Claim C5: for every register address and 4-byte payload, the command
frame is exactly: device address, function code 0x06, register high
byte, register low byte, register count 0x00 0x01, byte count 0x04, the
4 payload bytes, then the CRC-16 over all 11 preceding bytes serialized
low byte first; 13 bytes total. -/
theorem write_frame_layout (a r : Nat) (d : List Nat) (hd : d.length = 4) :
    write_frame a r d
      = ([a, 0x06, (r >>> 8) &&& 0xFF, r &&& 0xFF, 0x00, 0x01, 0x04] ++ d)
        ++ calculate_crc ((write_frame a r d).take 11)
    ∧ (write_frame a r d).length = 13 := by
  have htake : (write_frame a r d).take 11
      = [a, 0x06, (r >>> 8) &&& 0xFF, r &&& 0xFF, 0x00, 0x01, 0x04] ++ d := by
    show (([a, 0x06, (r >>> 8) &&& 0xFF, r &&& 0xFF, 0x00, 0x01, 0x04] ++ d)
      ++ calculate_crc ([a, 0x06, (r >>> 8) &&& 0xFF, r &&& 0xFF, 0x00, 0x01, 0x04] ++ d)).take 11
      = [a, 0x06, (r >>> 8) &&& 0xFF, r &&& 0xFF, 0x00, 0x01, 0x04] ++ d
    exact List.take_left' (by simp [hd])
  refine ⟨by rw [htake]; rfl, ?_⟩
  show (([a, 0x06, (r >>> 8) &&& 0xFF, r &&& 0xFF, 0x00, 0x01, 0x04] ++ d)
    ++ calculate_crc ([a, 0x06, (r >>> 8) &&& 0xFF, r &&& 0xFF, 0x00, 0x01, 0x04] ++ d)).length = 13
  simp [calculate_crc, hd]

theorem write_frame_layout_witness :
    (write_frame 1 0x0112 [0x00, 0x00, 0x13, 0x88]).length = 13 :=
  (write_frame_layout 1 0x0112 [0x00, 0x00, 0x13, 0x88] (by decide)).2

/-- Claim C9: every frame the driver builds (write-register commands and
the read-common-block command) is well-formed: recomputing the CRC over
all bytes preceding the trailing two CRC bytes reproduces exactly those
trailing two bytes. -/
theorem frames_wellformed (a r : Nat) (d : List Nat) :
    calculate_crc ((write_frame a r d).take ((write_frame a r d).length - 2))
        = (write_frame a r d).drop ((write_frame a r d).length - 2)
    ∧ calculate_crc ((read_frame a).take ((read_frame a).length - 2))
        = (read_frame a).drop ((read_frame a).length - 2) :=
  ⟨append_crc_wellformed ([a, 0x06, (r >>> 8) &&& 0xFF, r &&& 0xFF, 0x00, 0x01, 0x04] ++ d),
   append_crc_wellformed [a, 0x03, 0x03, 0x00, 0x00, 0x00]⟩

/-- Claim C10: request frames have fixed lengths: 13 bytes for a write
command with a 4-byte payload, 8 bytes for the read-common-block
command. -/
theorem frame_lengths (a r : Nat) (d : List Nat) (hd : d.length = 4) :
    (write_frame a r d).length = 13 ∧ (read_frame a).length = 8 := by
  constructor
  · show (([a, 0x06, (r >>> 8) &&& 0xFF, r &&& 0xFF, 0x00, 0x01, 0x04] ++ d)
      ++ calculate_crc ([a, 0x06, (r >>> 8) &&& 0xFF, r &&& 0xFF, 0x00, 0x01, 0x04] ++ d)).length = 13
    simp [calculate_crc, hd]
  · rfl

theorem frame_lengths_witness :
    (write_frame 2 0x011E [0, 0, 0, 1]).length = 13 ∧ (read_frame 2).length = 8 :=
  frame_lengths 2 0x011E [0, 0, 0, 1] (by decide)

/-- Claim C6: a write reports success exactly when the reply equals the
transmitted command frame byte for byte; any difference — including a
reply that is a strict prefix of the command, or an empty reply —
yields false. -/
theorem write_echo_iff (a r : Nat) (d resp : List Nat) :
    (write_single_register a r d resp = true ↔ resp = write_frame a r d)
    ∧ (resp ≠ write_frame a r d → write_single_register a r d resp = false)
    ∧ write_single_register a r d [] = false := by
  refine ⟨by simp [write_single_register], fun h => by
    simpa [write_single_register, beq_eq_false_iff_ne] using h, ?_⟩
  have hne : ([] : List Nat) ≠ write_frame a r d := by
    intro h
    have hl := congrArg List.length h
    show False
    rw [show (write_frame a r d).length
        = (([a, 0x06, (r >>> 8) &&& 0xFF, r &&& 0xFF, 0x00, 0x01, 0x04] ++ d)
          ++ calculate_crc ([a, 0x06, (r >>> 8) &&& 0xFF, r &&& 0xFF, 0x00, 0x01, 0x04] ++ d)).length
      from rfl] at hl
    simp [calculate_crc] at hl
  simpa [write_single_register, beq_eq_false_iff_ne] using hne

theorem write_echo_iff_witness :
    write_single_register 1 0x010E [0, 0, 0, 1] [0x01] = false :=
  (write_echo_iff 1 0x010E [0, 0, 0, 1] [0x01]).2.1 (by decide)

/-- Claim C7: the fixed 8-byte payload with status 0b00000011, one
reserved byte, voltage bytes 00 13 88 and current bytes 00 03 E8
decodes to on=true, mode=1 (CC), voltage 5.0 V, current 1.0 A. -/
theorem measurement_decode_example :
    read_common_registers 1 [0x01, 0x03, 0x08, 0x03, 0x00, 0x00, 0x13, 0x88, 0x00, 0x03, 0xE8]
      = .ok (some { is_on := true, mode := 1, voltage_mv := 5000, voltage_v := 5,
                    current_ma := 1000, current_a := 1 }) := by
  norm_num [read_common_registers, pySlice, beBytes]
  decide

/-- Claim C4 evaluations at the failing inputs: a header-matching reply
with declared payload length 0 makes `data[0]` raise IndexError instead
of returning None, and a header-matching reply with a 5-byte payload
(shorter than 8) returns a partially-populated snapshot whose current is
decoded from zero bytes as 0.  `get_measurements` propagates the
exception. -/
theorem read_truncated_reply_bug :
    read_common_registers 1 [0x01, 0x03, 0x00, 0x00, 0x00, 0x00] = .raised "IndexError"
    ∧ read_common_registers 1 [0x01, 0x03, 0x05, 0x03, 0x00, 0x00, 0x13, 0x88]
      = .ok (some { is_on := true, mode := 1, voltage_mv := 5000, voltage_v := 5,
                    current_ma := 0, current_a := 0 })
    ∧ get_measurements 1 [0x01, 0x03, 0x00, 0x00, 0x00, 0x00] = .raised "IndexError" := by
  refine ⟨by decide, ?_, by decide⟩
  norm_num [read_common_registers, pySlice, beBytes]
  decide

/-- Claim C2 counterexample: `set_power(250.001)` does not fail with
InvalidInput: the encoding truncates 2500.01 to 2500, which is inside
the inclusive range, so a frame is built. -/
theorem set_power_boundary_cex :
    set_power 1 (250001 / 1000) = .ok (write_frame 1 REG_CW_SETTING (pack_be4 2500)) := by
  have hp : pyInt ((250001 / 1000 : ℚ) * 10) = 2500 :=
    pyInt_eq_of_bounds (by norm_num) (by norm_num) (by norm_num)
  simp only [set_power, hp]
  norm_num
  rw [show Int.toNat 2500 = 2500 from rfl]

/-- Claim C2 (amended): the boundary values 150 V, 30 A, 80 ohm, 250 W
are included (no InvalidInput raise) and 150.001 V, 30.001 A and
80.001 ohm raise InvalidInput before any frame exists; for power the
deciwatt resolution truncates 250.001 W to the boundary encoding 2500
(a frame is built), and a value that encodes above 2500, such as
250.1 W, raises. -/
theorem setter_boundaries :
    raisedError (set_voltage 1 150) = false
    ∧ raisedError (set_voltage 1 (150001 / 1000)) = true
    ∧ raisedError (set_current 1 30) = false
    ∧ raisedError (set_current 1 (30001 / 1000)) = true
    ∧ raisedError (set_resistance 1 80) = false
    ∧ raisedError (set_resistance 1 (80001 / 1000)) = true
    ∧ raisedError (set_power 1 250) = false
    ∧ raisedError (set_power 1 (250001 / 1000)) = false
    ∧ raisedError (set_power 1 (2501 / 10)) = true := by
  refine ⟨?_, ?_, ?_, ?_, ?_, ?_, ?_, ?_, ?_⟩
  · have h : pyInt ((150 : ℚ) * 1000) = 150000 :=
      pyInt_eq_of_bounds (by norm_num) (by norm_num) (by norm_num)
    simp only [set_voltage, h]
    norm_num [raisedError]
  · have h : pyInt ((150001 / 1000 : ℚ) * 1000) = 150001 :=
      pyInt_eq_of_bounds (by norm_num) (by norm_num) (by norm_num)
    simp only [set_voltage, h]
    norm_num [raisedError]
  · have h : pyInt ((30 : ℚ) * 1000) = 30000 :=
      pyInt_eq_of_bounds (by norm_num) (by norm_num) (by norm_num)
    simp only [set_current, h]
    norm_num [raisedError]
  · have h : pyInt ((30001 / 1000 : ℚ) * 1000) = 30001 :=
      pyInt_eq_of_bounds (by norm_num) (by norm_num) (by norm_num)
    simp only [set_current, h]
    norm_num [raisedError]
  · have h : pyInt ((80 : ℚ) * 1000) = 80000 :=
      pyInt_eq_of_bounds (by norm_num) (by norm_num) (by norm_num)
    simp only [set_resistance, h]
    norm_num [raisedError]
  · have h : pyInt ((80001 / 1000 : ℚ) * 1000) = 80001 :=
      pyInt_eq_of_bounds (by norm_num) (by norm_num) (by norm_num)
    simp only [set_resistance, h]
    norm_num [raisedError]
  · have h : pyInt ((250 : ℚ) * 10) = 2500 :=
      pyInt_eq_of_bounds (by norm_num) (by norm_num) (by norm_num)
    simp only [set_power, h]
    norm_num [raisedError]
  · have h : pyInt ((250001 / 1000 : ℚ) * 10) = 2500 :=
      pyInt_eq_of_bounds (by norm_num) (by norm_num) (by norm_num)
    simp only [set_power, h]
    norm_num [raisedError]
  · have h : pyInt ((2501 / 10 : ℚ) * 10) = 2501 :=
      pyInt_eq_of_bounds (by norm_num) (by norm_num) (by norm_num)
    simp only [set_power, h]
    norm_num [raisedError]

/-- Big-endian unpacking inverts `struct.pack(">I", _)` below 2^32. -/
theorem beBytes_pack_be4 {n : Nat} (h : n < 2 ^ 32) : beBytes (pack_be4 n) = n := by
  simp only [beBytes, pack_be4, List.foldl_cons, List.foldl_nil]
  simp only [show (2 : Nat) ^ 24 = 16777216 from by norm_num,
    show (2 : Nat) ^ 16 = 65536 from by norm_num,
    show (2 : Nat) ^ 8 = 256 from by norm_num]
  have h32 : n < 4294967296 := by simpa using h
  omega

/-- Bytes 7..10 of a write frame are exactly its 4-byte payload. -/
theorem pySlice_write_frame (a r n : Nat) :
    pySlice (write_frame a r (pack_be4 n)) 7 11 = pack_be4 n := rfl

/-- Claim C3 counterexample: at 2^-10 volts (an exactly representable
float) the driver encodes int(0.9765625) = 0, while round would give 1;
the frame the driver builds carries payload 0. -/
theorem encode_round_cex :
    set_voltage 1 (1 / 1024) = .ok (write_frame 1 REG_CV_SETTING (pack_be4 0))
    ∧ round (((1 : ℚ) / 1024) * 1000) = 1
    ∧ pack_be4 0 ≠ pack_be4 1 := by
  refine ⟨?_, ?_, by decide⟩
  · have h : pyInt ((1 / 1024 : ℚ) * 1000) = 0 :=
      pyInt_eq_of_bounds (by norm_num) (by norm_num) (by norm_num)
    simp only [set_voltage, h]
    norm_num
  · rw [round_eq]
    exact Int.floor_eq_iff.mpr (by constructor <;> norm_num)

/-- Claim C3 (amended): the encoded integer written to the device is the
truncation toward zero (Python `int()`) of value * scale — not the
rounding — and it is validated against the quantity's inclusive range
before the frame is built: a successful setter returns a frame whose
4-byte payload decodes big-endian back to the truncated encoding, which
lies in range; an out-of-range encoding raises with no frame built. -/
theorem setters_encode_truncated (a : Nat) (v : ℚ) :
    (∀ f, set_voltage a v = .ok f →
      0 ≤ pyInt (v * 1000) ∧ pyInt (v * 1000) ≤ 150000
        ∧ beBytes (pySlice f 7 11) = (pyInt (v * 1000)).toNat)
    ∧ (¬(0 ≤ pyInt (v * 1000) ∧ pyInt (v * 1000) ≤ 150000) →
        set_voltage a v = .raised "Voltage must be between 0 and 150V")
    ∧ (∀ f, set_current a v = .ok f →
      0 ≤ pyInt (v * 1000) ∧ pyInt (v * 1000) ≤ 30000
        ∧ beBytes (pySlice f 7 11) = (pyInt (v * 1000)).toNat)
    ∧ (¬(0 ≤ pyInt (v * 1000) ∧ pyInt (v * 1000) ≤ 30000) →
        set_current a v = .raised "Current must be between 0 and 30A")
    ∧ (∀ f, set_resistance a v = .ok f →
      0 ≤ pyInt (v * 1000) ∧ pyInt (v * 1000) ≤ 80000
        ∧ beBytes (pySlice f 7 11) = (pyInt (v * 1000)).toNat)
    ∧ (¬(0 ≤ pyInt (v * 1000) ∧ pyInt (v * 1000) ≤ 80000) →
        set_resistance a v = .raised "Resistance must be between 0 and 80 ohms")
    ∧ (∀ f, set_power a v = .ok f →
      0 ≤ pyInt (v * 10) ∧ pyInt (v * 10) ≤ 2500
        ∧ beBytes (pySlice f 7 11) = (pyInt (v * 10)).toNat)
    ∧ (¬(0 ≤ pyInt (v * 10) ∧ pyInt (v * 10) ≤ 2500) →
        set_power a v = .raised "Power must be between 0 and 250W") := by
  refine ⟨?_, ?_, ?_, ?_, ?_, ?_, ?_, ?_⟩
  · intro f hf
    simp only [set_voltage] at hf
    by_cases hc : 0 ≤ pyInt (v * 1000) ∧ pyInt (v * 1000) ≤ 150000
    · rw [if_pos hc] at hf
      injection hf with hf2
      refine ⟨hc.1, hc.2, ?_⟩
      rw [← hf2, pySlice_write_frame]
      exact beBytes_pack_be4 (lt_of_le_of_lt
        (Int.toNat_le.mpr (by exact_mod_cast hc.2)) (by norm_num))
    · rw [if_neg hc] at hf
      exact absurd hf (by simp)
  · intro hc
    simp only [set_voltage, if_neg hc]
  · intro f hf
    simp only [set_current] at hf
    by_cases hc : 0 ≤ pyInt (v * 1000) ∧ pyInt (v * 1000) ≤ 30000
    · rw [if_pos hc] at hf
      injection hf with hf2
      refine ⟨hc.1, hc.2, ?_⟩
      rw [← hf2, pySlice_write_frame]
      exact beBytes_pack_be4 (lt_of_le_of_lt
        (Int.toNat_le.mpr (by exact_mod_cast hc.2)) (by norm_num))
    · rw [if_neg hc] at hf
      exact absurd hf (by simp)
  · intro hc
    simp only [set_current, if_neg hc]
  · intro f hf
    simp only [set_resistance] at hf
    by_cases hc : 0 ≤ pyInt (v * 1000) ∧ pyInt (v * 1000) ≤ 80000
    · rw [if_pos hc] at hf
      injection hf with hf2
      refine ⟨hc.1, hc.2, ?_⟩
      rw [← hf2, pySlice_write_frame]
      exact beBytes_pack_be4 (lt_of_le_of_lt
        (Int.toNat_le.mpr (by exact_mod_cast hc.2)) (by norm_num))
    · rw [if_neg hc] at hf
      exact absurd hf (by simp)
  · intro hc
    simp only [set_resistance, if_neg hc]
  · intro f hf
    simp only [set_power] at hf
    by_cases hc : 0 ≤ pyInt (v * 10) ∧ pyInt (v * 10) ≤ 2500
    · rw [if_pos hc] at hf
      injection hf with hf2
      refine ⟨hc.1, hc.2, ?_⟩
      rw [← hf2, pySlice_write_frame]
      exact beBytes_pack_be4 (lt_of_le_of_lt
        (Int.toNat_le.mpr (by exact_mod_cast hc.2)) (by norm_num))
    · rw [if_neg hc] at hf
      exact absurd hf (by simp)
  · intro hc
    simp only [set_power, if_neg hc]

theorem setters_encode_truncated_witness :
    0 ≤ pyInt ((5 : ℚ) * 1000) ∧ pyInt ((5 : ℚ) * 1000) ≤ 150000
      ∧ beBytes (pySlice (write_frame 1 REG_CV_SETTING (pack_be4 5000)) 7 11)
        = (pyInt ((5 : ℚ) * 1000)).toNat :=
  (setters_encode_truncated 1 5).1 (write_frame 1 REG_CV_SETTING (pack_be4 5000)) (by
    have h : pyInt ((5 : ℚ) * 1000) = 5000 :=
      pyInt_eq_of_bounds (by norm_num) (by norm_num) (by norm_num)
    simp only [set_voltage, h]
    norm_num
    rw [show Int.toNat 5000 = 5000 from rfl])

end Kunkin
